import Mathlib

/-!
Verification of the linkman browser-extension sync core: a shallow embedding
of its resilient transport (`fetchWithRetry`, `buildHeaders` in utils),
the Mirror auto-sync (`performAutoSync` / `startSync` in background.js) and
the Push / Pull-Merge handlers (options.js), together with theorems settling
the specification's claims about them.
-/

namespace Linkman

/-! ## Resilient transport (utils: fetchWithRetry) -/

/-- What one underlying `fetch` call does: either the promise rejects
(transport-level failure) or it resolves with a response carrying a status. -/
inductive FetchOutcome where
  | netError
  | response (status : Nat)
deriving Repr, DecidableEq

/-- JS `res.ok`: status in [200,300). -/
def resOk (s : Nat) : Bool := 200 ≤ s && s < 300

/-- The body of `fetchWithRetry`'s try block for one attempt: return the
response if ok; otherwise throw "Client error: s" when s ∈ [400,500) \ \x7b429\x7d,
else throw "Server returned s"; a rejected fetch is also a thrown error. -/
def attemptResult : FetchOutcome → Except String Nat
  | .netError => .error "fetch rejected"
  | .response s =>
      if resOk s then .ok s
      else if 400 ≤ s && s < 500 && s != 429 then .error ("Client error: " ++ toString s)
      else .error ("Server returned " ++ toString s)

/-- Observable result of a `fetchWithRetry` call: the value returned or error
thrown, the successive backoff waits performed (in ms, in order), and the
number of underlying `fetch` attempts made. -/
structure FetchRes where
  result : Except String Nat
  waits : List Nat
  attempts : Nat
deriving Repr

/-- utils `fetchWithRetry(url, options, retries = 3, backoff = 1000)`.
`oracle n` is what the n-th underlying `fetch` does (the url/options are
fixed across attempts, so only the attempt index varies).  Any error thrown
in the try block — including the "Client error" throw — lands in the catch,
which retries while `retries > 0`, waiting `backoff` ms then recursing with
`retries - 1` and `backoff * 2`. -/
def fetchWithRetry (oracle : Nat → FetchOutcome) (attempt retries backoff : Nat) : FetchRes :=
  match attemptResult (oracle attempt), retries with
  | .ok s, _ => { result := .ok s, waits := [], attempts := 1 }
  | .error e, 0 => { result := .error e, waits := [], attempts := 1 }
  | .error _, r + 1 =>
      let rest := fetchWithRetry oracle (attempt + 1) r (backoff * 2)
      { result := rest.result, waits := backoff :: rest.waits, attempts := 1 + rest.attempts }

/-- Total time spent waiting in backoff across a call. -/
def FetchRes.waitMs (r : FetchRes) : Nat := r.waits.sum

/-! ## Settings and request headers (utils: getSettings, buildHeaders) -/

/-- The persisted settings snapshot read by `chrome.storage.sync.get`.
Missing string keys are modelled as `""` (JS truthiness of `undefined` and
`""` coincides everywhere these fields are used). -/
structure SyncSettings where
  backendUrl : String
  apiKey : String
  autoSync : Bool
  extraHeaders : List (String × String)
deriving Repr, DecidableEq

/-- JS object key assignment `headers[k] = v` on an object encoded as its
ordered key/value entries: update the value in place if the key exists,
otherwise append the new entry. -/
def setHeader : List (String × String) → String → String → List (String × String)
  | [], k, v => [(k, v)]
  | (k', v') :: rest, k, v =>
      if k' = k then (k, v) :: rest else (k', v') :: setHeader rest k v

/-- JS object key read `headers[k]` on the same encoding. -/
def getHeader : List (String × String) → String → Option String
  | [], _ => none
  | (k', v) :: rest, k => if k' = k then some v else getHeader rest k

/-- utils `buildHeaders(settings, isJson)`: start from
`Authorization: Bearer <apiKey>`; add `Content-Type: application/json` when
`isJson`, else `Accept: application/json`; then assign every configured extra
header whose key is non-empty, in order (later assignments override). -/
def buildHeaders (settings : SyncSettings) (isJson : Bool) : List (String × String) :=
  let h0 := [("Authorization", "Bearer " ++ settings.apiKey)]
  let h1 := if isJson then setHeader h0 "Content-Type" "application/json"
            else setHeader h0 "Accept" "application/json"
  settings.extraHeaders.foldl
    (fun hs p => if p.1 ≠ "" then setHeader hs p.1 p.2 else hs) h1

/-- The headers object built inline by background.js `performAutoSync`
(lines 10–21): `Authorization: Bearer <apiKey>` and `Accept:
application/json`, then every configured extra header with a non-empty key,
in order. -/
def autoSyncHeaders (settings : SyncSettings) : List (String × String) :=
  let h0 := setHeader [("Authorization", "Bearer " ++ settings.apiKey)]
    "Accept" "application/json"
  settings.extraHeaders.foldl
    (fun hs p => if p.1 ≠ "" then setHeader hs p.1 p.2 else hs) h0

/-! ## The local bookmark tree (chrome.bookmarks) -/

/-- A node of the native bookmark tree: an id, a title, an optional URL
(bookmarks have one, folders do not) and a list of children. -/
inductive NativeNode where
  | mk (id : Nat) (title : String) (url : Option String) (children : List NativeNode)
deriving Repr

def NativeNode.id : NativeNode → Nat
  | .mk i _ _ _ => i

/-- A flattened bookmark as collected by the `traverseNodes` helpers:
the node's id, title and URL. -/
structure FlatNode where
  id : Nat
  title : String
  url : String
deriving Repr, DecidableEq

mutual

/-- Helper `traverseNodes` on a single node: emit the node if it has a URL,
then recurse into its children (depth-first, pre-order). -/
def traverseNode : NativeNode → List FlatNode
  | .mk i t u cs =>
      (match u with | some url => [⟨i, t, url⟩] | none => []) ++ traverseList cs

/-- Helper `traverseNodes` on a list of sibling nodes, in order. -/
def traverseList : List NativeNode → List FlatNode
  | [] => []
  | n :: ns => traverseNode n ++ traverseList ns

end

/-- Model of `chrome.bookmarks.create` with a title and a url: a fresh leaf
node appended to the store (placed at top level; only the flattened view is
reasoned about). -/
def createLeaf (roots : List NativeNode) (nodeId : Nat) (title url : String) :
    List NativeNode :=
  roots ++ [.mk nodeId title (some url) []]

mutual

/-- Model of `chrome.bookmarks.remove` on one node: drop the node when its
id matches, otherwise keep it and remove inside its children. -/
def removeIdNode (i : Nat) : NativeNode → List NativeNode
  | .mk j t u cs => if j = i then [] else [.mk j t u (removeIdList i cs)]

/-- Model of `chrome.bookmarks.remove` over a list of sibling nodes. -/
def removeIdList (i : Nat) : List NativeNode → List NativeNode
  | [] => []
  | n :: ns => removeIdNode i n ++ removeIdList i ns

end

/-- Sequentially remove a list of node ids from the store (the delete loop
of `performAutoSync`, one `chrome.bookmarks.remove` per id, in order). -/
def removeAllIds : List Nat → List NativeNode → List NativeNode
  | [], roots => roots
  | i :: ids, roots => removeAllIds ids (removeIdList i roots)

/-! ## Remote records and the sync operations -/

/-- A bookmark record as returned by `GET /bookmarks/sync` (the fields the
sync code reads).  A missing title is modelled as `""`. -/
structure BookmarkRecord where
  url : String
  title : String
deriving Repr, DecidableEq

/-- JS `bm.title || bm.url`: fall back to the URL when the title is empty. -/
def recordTitle (bm : BookmarkRecord) : String :=
  if bm.title = "" then bm.url else bm.title

/-- What the `/bookmarks/sync` fetch does in a given run: `fetchWithRetry`
throws (transport failure or retries exhausted), or it returns and
`res.json()` yields `null` or an array of records. -/
inductive SyncFetch where
  | failure
  | success (body : Option (List BookmarkRecord))
deriving Repr, DecidableEq

/-- The loop `for bm of toCreate: chrome.bookmarks.create(...)`, threading a
fresh-id counter for the created nodes. -/
def applyCreates (toCreate : List BookmarkRecord) (roots : List NativeNode)
    (nextId : Nat) : List NativeNode × Nat :=
  List.foldl (fun st bm => (createLeaf st.1 st.2 (recordTitle bm) bm.url, st.2 + 1))
    (roots, nextId) toCreate

/-- The leaf nodes appended by a run of the create loop starting at a given
fresh id: one leaf per record, in order, ids increasing by one, the title
falling back to the URL when empty. -/
def createdLeaves (toCreate : List BookmarkRecord) (nextId : Nat) : List NativeNode :=
  match toCreate with
  | [] => []
  | bm :: rest =>
      NativeNode.mk nextId (recordTitle bm) (some bm.url) [] :: createdLeaves rest (nextId + 1)

/-- Observable outcome of one Mirror or Pull-Merge pass: the resulting tree
and id counter, the records for which a local create was issued, the node
ids removed, whether any network request was issued, and the user-visible
status message shown (via `showSyncStatus`), if any. -/
structure OpOutcome where
  tree : List NativeNode
  nextId : Nat
  created : List BookmarkRecord
  removedIds : List Nat
  fetched : Bool
  message : Option String
deriving Repr

/-- An outcome that leaves the local store untouched. -/
def noChange (roots : List NativeNode) (nextId : Nat) (fetched : Bool)
    (message : Option String) : OpOutcome :=
  { tree := roots, nextId := nextId, created := [], removedIds := []
    fetched := fetched, message := message }

/-- The Mirror reconciliation plan computed by `performAutoSync`:
`toCreate` = remote records whose URL is not among the local URLs,
`toDelete` = local flattened nodes whose URL is not among the remote URLs. -/
def mirrorPlan (backendBookmarks : List BookmarkRecord) (roots : List NativeNode) :
    List BookmarkRecord × List FlatNode :=
  let nativeBookmarks := traverseList roots
  let nativeUrls := nativeBookmarks.map (fun n => n.url)
  let toCreate := backendBookmarks.filter (fun bm => !nativeUrls.contains bm.url)
  let backendUrls := backendBookmarks.map (fun b => b.url)
  let toDelete := nativeBookmarks.filter (fun n => !backendUrls.contains n.url)
  (toCreate, toDelete)

/-- background.js `performAutoSync`, as a function of the settings snapshot,
whether `chrome.bookmarks` is available, what the `/bookmarks/sync` fetch
would do, and the local tree.  Guard: return at once unless `autoSync`,
`backendUrl` and `chrome.bookmarks` are all truthy.  A thrown fetch error is
caught (console log only); a `null` body returns early; otherwise creates
are applied first, then every pre-existing local node absent from the remote
URL set is removed.  No path shows a user-visible message. -/
def performAutoSync (settings : SyncSettings) (bookmarksAvail : Bool)
    (fetch : SyncFetch) (roots : List NativeNode) (nextId : Nat) : OpOutcome :=
  if !settings.autoSync || settings.backendUrl = "" || !bookmarksAvail then
    noChange roots nextId false none
  else
    match fetch with
    | .failure => noChange roots nextId true none
    | .success none => noChange roots nextId true none
    | .success (some backendBookmarks) =>
        let plan := mirrorPlan backendBookmarks roots
        let st := applyCreates plan.1 roots nextId
        { tree := removeAllIds (plan.2.map (fun n => n.id)) st.1
          nextId := st.2
          created := plan.1
          removedIds := plan.2.map (fun n => n.id)
          fetched := true
          message := none }

/-- options.js `syncToNativeBtn` click handler (Pull-Merge): abort with a
message when `backendUrl` is unset; fetch the full remote collection; a
thrown fetch error is caught with an error message; an empty or `null`
collection reports and stops; otherwise create a local leaf for each remote
record whose URL is absent locally (title falling back to the URL) and
report the count.  Nothing is ever removed. -/
def syncToNative (settings : SyncSettings) (bookmarksAvail : Bool)
    (fetch : SyncFetch) (roots : List NativeNode) (nextId : Nat) : OpOutcome :=
  if settings.backendUrl = "" then
    noChange roots nextId false (some "Please set the backend URL first.")
  else if !bookmarksAvail then
    noChange roots nextId false (some "Bookmarks permission missing.")
  else
    match fetch with
    | .failure => noChange roots nextId true (some "Failed to sync to native bookmarks.")
    | .success none => noChange roots nextId true (some "No bookmarks found on backend.")
    | .success (some backendBookmarks) =>
        if backendBookmarks.length = 0 then
          noChange roots nextId true (some "No bookmarks found on backend.")
        else
          let nativeUrls := (traverseList roots).map (fun n => n.url)
          let toCreate := backendBookmarks.filter (fun bm => !nativeUrls.contains bm.url)
          let st := applyCreates toCreate roots nextId
          { tree := st.1, nextId := st.2, created := toCreate, removedIds := []
            fetched := true
            message := some ("Synced " ++ toString toCreate.length ++ " new bookmarks to native.") }

/-- A `POST /bookmarks` body as issued by the import loop. -/
structure PostRequest where
  url : String
  title : String
  tags : List String
deriving Repr, DecidableEq

/-- Observable outcome of one Push (import) run. -/
structure PushOutcome where
  requests : List PostRequest
  successCount : Nat
  failCount : Nat
  fetched : Bool
  message : Option String
deriving Repr, DecidableEq

/-- One iteration of the import loop's tallying, on a (success, fail) pair:
a returned response counts as a success when `res.ok` and a failure
otherwise; a thrown `fetchWithRetry` error is caught and counted as a
failure.  The loop never aborts early. -/
def countPost (postResult : Nat → Except String Nat) (c : Nat × Nat) (i : Nat) : Nat × Nat :=
  match postResult i with
  | .ok s => if resOk s then (c.1 + 1, c.2) else (c.1, c.2 + 1)
  | .error _ => (c.1, c.2 + 1)

/-- options.js `importBookmarksBtn` click handler (Push): abort with a
message when `backendUrl` is unset or bookmarks are unavailable; flatten the
tree; with no leaves, report and stop; otherwise POST each leaf with the
fixed tag list `["imported"]`.  `postResult i` is the result of the
`fetchWithRetry` call for the i-th leaf (`.ok status` when it returned,
`.error e` when it threw); a returned response counts as a success when
`res.ok`, a thrown error is caught and counted as a failure, and the loop
always continues to the next leaf. -/
def importBookmarks (settings : SyncSettings) (bookmarksAvail : Bool)
    (roots : List NativeNode) (postResult : Nat → Except String Nat) : PushOutcome :=
  if settings.backendUrl = "" then
    { requests := [], successCount := 0, failCount := 0, fetched := false
      message := some "Please set the backend URL first." }
  else if !bookmarksAvail then
    { requests := [], successCount := 0, failCount := 0, fetched := false
      message := some "Bookmarks permission missing." }
  else
    let flatBookmarks := traverseList roots
    if flatBookmarks.length = 0 then
      { requests := [], successCount := 0, failCount := 0, fetched := false
        message := some "No native bookmarks found." }
    else
      let requests := flatBookmarks.map
        (fun bm => { url := bm.url, title := bm.title, tags := ["imported"] : PostRequest })
      let counts := List.foldl (countPost postResult) (0, 0) (List.range flatBookmarks.length)
      { requests := requests, successCount := counts.1, failCount := counts.2
        fetched := true
        message := some ("Imported " ++ toString counts.1 ++ " bookmarks. "
          ++ toString counts.2 ++ " failed.") }

/-! ## Scheduler (background.js: startSync / stopSync / listeners) -/

/-- The guard at the top of `performAutoSync` — the only condition between a
timer tick and a full fetch-and-apply pass.  It reads only the settings
snapshot and bookmark availability; no in-flight state exists. -/
def mirrorGuard (settings : SyncSettings) (bookmarksAvail : Bool) : Bool :=
  settings.autoSync && settings.backendUrl != "" && bookmarksAvail

/-- Scheduler state: the registered interval handle (`syncIntervalId`) and
the number of Mirror passes currently in flight past the guard. -/
structure SchedulerState where
  syncIntervalId : Option Nat
  activeRuns : Nat
deriving Repr, DecidableEq

/-- background.js `startSync`: clear any prior interval, register a new one,
and invoke `performAutoSync` immediately (in flight when the guard passes). -/
def startSync (freshId : Nat) (settings : SyncSettings) (bookmarksAvail : Bool)
    (s : SchedulerState) : SchedulerState :=
  { syncIntervalId := some freshId
    activeRuns := s.activeRuns + (if mirrorGuard settings bookmarksAvail then 1 else 0) }

/-- background.js `stopSync`: clear the interval; in-flight runs continue. -/
def stopSync (s : SchedulerState) : SchedulerState :=
  { s with syncIntervalId := none }

/-- Events the background page reacts to. -/
inductive SchedEvent where
  | tick
  | runDone
  | settingsChanged (autoSync : Bool)
deriving Repr, DecidableEq

/-- One scheduler transition.  A `tick` of a registered interval invokes
`performAutoSync` unconditionally — the handler consults no in-flight
state, so a guarded pass starts whenever the settings guard holds, on top
of any passes already running. -/
def schedStep (settings : SyncSettings) (bookmarksAvail : Bool) (freshId : Nat) :
    SchedulerState → SchedEvent → SchedulerState
  | s, .tick =>
      if s.syncIntervalId.isSome && mirrorGuard settings bookmarksAvail then
        { s with activeRuns := s.activeRuns + 1 }
      else s
  | s, .runDone => { s with activeRuns := s.activeRuns - 1 }
  | s, .settingsChanged true => startSync freshId settings bookmarksAvail s
  | s, .settingsChanged false => stopSync s

/-! ## Helper lemmas -/

/-- Unfolding lemma: a failing attempt with retries remaining waits `backoff`
and recurses with `retries - 1`, `backoff * 2`. -/
theorem fetchWithRetry_retry_step (oracle : Nat → FetchOutcome) (a r b : Nat)
    (h : (attemptResult (oracle a)).isOk = false) :
    fetchWithRetry oracle a (r + 1) b =
      { result := (fetchWithRetry oracle (a + 1) r (b * 2)).result
        waits := b :: (fetchWithRetry oracle (a + 1) r (b * 2)).waits
        attempts := 1 + (fetchWithRetry oracle (a + 1) r (b * 2)).attempts } := by
  rcases he : attemptResult (oracle a) with e | s
  · rw [fetchWithRetry.eq_def, he]
  · rw [he] at h
    simp [Except.isOk, Except.toBool] at h

/-- A successful attempt returns at once: no wait, one fetch. -/
theorem fetchWithRetry_ok (oracle : Nat → FetchOutcome) (a r b s : Nat)
    (h : attemptResult (oracle a) = .ok s) :
    fetchWithRetry oracle a r b = { result := .ok s, waits := [], attempts := 1 } := by
  rw [fetchWithRetry.eq_def, h]

/-- Flattening distributes over sibling-list concatenation. -/
theorem traverseList_append (xs ys : List NativeNode) :
    traverseList (xs ++ ys) = traverseList xs ++ traverseList ys := by
  induction xs with
  | nil => rfl
  | cons n ns ih => simp [traverseList, ih, List.append_assoc]

/-- The create loop appends exactly `createdLeaves` and advances the id
counter by the number of records. -/
theorem applyCreates_eq (toCreate : List BookmarkRecord) (roots : List NativeNode)
    (nextId : Nat) :
    applyCreates toCreate roots nextId =
      (roots ++ createdLeaves toCreate nextId, nextId + toCreate.length) := by
  induction toCreate generalizing roots nextId with
  | nil => simp [applyCreates, createdLeaves]
  | cons bm rest ih =>
      have step : applyCreates (bm :: rest) roots nextId =
          applyCreates rest (createLeaf roots nextId (recordTitle bm) bm.url) (nextId + 1) := rfl
      rw [step, ih]
      simp [createLeaf, createdLeaves, List.append_assoc]
      omega

/-- The URLs of the leaves created for a record list are that list's URLs. -/
theorem traverseList_createdLeaves (tc : List BookmarkRecord) (n : Nat) :
    (traverseList (createdLeaves tc n)).map (fun f => f.url) = tc.map (fun bm => bm.url) := by
  induction tc generalizing n with
  | nil => rfl
  | cons bm rest ih => simp [createdLeaves, traverseList, traverseNode, ih]

mutual

/-- Every flattened entry surviving a removal inside one node was already
present and does not carry the removed id. -/
theorem mem_traverse_removeIdNode (i : Nat) (n : NativeNode) (f : FlatNode)
    (h : f ∈ traverseList (removeIdNode i n)) : f ∈ traverseNode n ∧ f.id ≠ i := by
  cases n with
  | mk j t u cs =>
      rw [removeIdNode] at h
      by_cases hj : j = i
      · rw [if_pos hj] at h
        simp [traverseList] at h
      · rw [if_neg hj] at h
        simp only [traverseList, List.append_nil] at h
        simp only [traverseNode] at h ⊢
        rcases List.mem_append.mp h with hh | ht
        · constructor
          · exact List.mem_append.mpr (Or.inl hh)
          · rcases u with _ | url
            · simp at hh
            · simp at hh
              rw [hh]
              simpa using hj
        · obtain ⟨h1, h2⟩ := mem_traverse_removeIdList i cs f ht
          exact ⟨List.mem_append.mpr (Or.inr h1), h2⟩

/-- Every flattened entry surviving a removal over a sibling list was already
present and does not carry the removed id. -/
theorem mem_traverse_removeIdList (i : Nat) (ns : List NativeNode) (f : FlatNode)
    (h : f ∈ traverseList (removeIdList i ns)) : f ∈ traverseList ns ∧ f.id ≠ i := by
  cases ns with
  | nil => simp [removeIdList, traverseList] at h
  | cons n rest =>
      rw [removeIdList, traverseList_append] at h
      rw [traverseList]
      rcases List.mem_append.mp h with hh | ht
      · obtain ⟨h1, h2⟩ := mem_traverse_removeIdNode i n f hh
        exact ⟨List.mem_append.mpr (Or.inl h1), h2⟩
      · obtain ⟨h1, h2⟩ := mem_traverse_removeIdList i rest f ht
        exact ⟨List.mem_append.mpr (Or.inr h1), h2⟩

end

/-- Every flattened entry surviving the sequential removal of a list of ids
was already present and carries none of the removed ids. -/
theorem mem_traverse_removeAllIds (ids : List Nat) (roots : List NativeNode) (f : FlatNode)
    (h : f ∈ traverseList (removeAllIds ids roots)) :
    f ∈ traverseList roots ∧ f.id ∉ ids := by
  induction ids generalizing roots with
  | nil => simpa [removeAllIds] using h
  | cons i ids ih =>
      rw [removeAllIds] at h
      obtain ⟨h1, h2⟩ := ih (removeIdList i roots) h
      obtain ⟨h3, h4⟩ := mem_traverse_removeIdList i roots f h1
      refine ⟨h3, ?_⟩
      simp only [List.mem_cons, not_or]
      exact ⟨h4, h2⟩

/-- Removing the id of every flattened entry empties the flattened view. -/
theorem traverse_removeAll_self (roots : List NativeNode) :
    traverseList (removeAllIds ((traverseList roots).map (fun f => f.id)) roots) = [] := by
  rw [List.eq_nil_iff_forall_not_mem]
  intro f hf
  obtain ⟨h1, h2⟩ := mem_traverse_removeAllIds _ _ _ hf
  exact h2 (List.mem_map_of_mem _ h1)

/-- The import tally adds one to the pair's total per processed index: no
failure aborts the loop. -/
theorem countPost_fold_sum (postResult : Nat → Except String Nat) (is : List Nat)
    (a b : Nat) :
    (List.foldl (countPost postResult) (a, b) is).1
      + (List.foldl (countPost postResult) (a, b) is).2 = a + b + is.length := by
  induction is generalizing a b with
  | nil => simp
  | cons i is ih =>
      rw [List.foldl_cons]
      rcases he : postResult i with e | s
      · simp only [countPost, he]
        rw [ih]
        simp only [List.length_cons]
        omega
      · cases hs : resOk s
        · simp only [countPost, he, hs, Bool.false_eq_true, if_false]
          rw [ih]
          simp only [List.length_cons]
          omega
        · simp only [countPost, he, hs, if_true]
          rw [ih]
          simp only [List.length_cons]
          omega

/-! ## Claim theorems -/

/-- C1: in every Mirror run whose remote fetch of the full collection fails
(transport error or retries exhausted), `performAutoSync` aborts and the
local store is completely unchanged: no leaf is created and none removed. -/
theorem mirror_fetch_failure_fail_closed (settings : SyncSettings) (avail : Bool)
    (roots : List NativeNode) (nextId : Nat) :
    (performAutoSync settings avail .failure roots nextId).tree = roots ∧
    (performAutoSync settings avail .failure roots nextId).created = [] ∧
    (performAutoSync settings avail .failure roots nextId).removedIds = [] := by
  unfold performAutoSync
  split <;> exact ⟨rfl, rfl, rfl⟩

/-- C2: for every remote collection and local tree, no URL appears both
among the Mirror plan's records to create locally and among the local
flattened nodes it deletes. -/
theorem mirror_plan_create_delete_disjoint (backendBookmarks : List BookmarkRecord)
    (roots : List NativeNode) :
    ∀ u ∈ (mirrorPlan backendBookmarks roots).1.map (fun bm => bm.url),
      u ∉ (mirrorPlan backendBookmarks roots).2.map (fun n => n.url) := by
  intro u hc hd
  simp only [mirrorPlan, List.mem_map, List.mem_filter, Bool.not_eq_true'] at hc hd
  obtain ⟨bm, ⟨hbm, _⟩, hub⟩ := hc
  obtain ⟨n, ⟨_, hnf⟩, hun⟩ := hd
  have hmem : n.url ∈ backendBookmarks.map (fun b => b.url) := by
    rw [hun, ← hub]
    exact List.mem_map_of_mem _ hbm
  rw [← List.elem_iff] at hmem
  simp only [List.contains] at hnf
  rw [hmem] at hnf
  cases hnf

/-- C2 witness: on remote `[x]` and an empty local tree, `x`'s URL is
planned for creation and is not among the deletions. -/
theorem mirror_plan_disjoint_witness :
    "http://x" ∉ (mirrorPlan [⟨"http://x", "X"⟩] []).2.map (fun n => n.url) :=
  mirror_plan_create_delete_disjoint [⟨"http://x", "X"⟩] [] "http://x" (by decide)

/-- C3 (code bug): a transport call answered by a single 404 is supposed to
fail immediately with no further attempt and no wait; in the code the
`Client error` throw lands in the same catch as retryable errors, so with
the default parameters a constant-404 endpoint is fetched 4 times with
backoff waits 1000, 2000 and 4000 ms before failing. -/
theorem client_error_404_is_retried :
    fetchWithRetry (fun _ => .response 404) 0 3 1000 =
      { result := .error "Client error: 404", waits := [1000, 2000, 4000], attempts := 4 } := rfl

/-- C4: a retryable failure with retries remaining waits exactly `backoff`
milliseconds and recurses with `retries - 1` and `backoff * 2`; with default
parameters a call failing twice with 503 then succeeding waits 1000 then
2000 ms (total 3000 ≥ 1000 + 2000) and returns the successful response, and
an always-failing 503 call waits the successive defaults 1000, 2000, 4000. -/
theorem retry_backoff_schedule :
    (∀ (oracle : Nat → FetchOutcome) (a r b : Nat),
      (attemptResult (oracle a)).isOk = false →
      fetchWithRetry oracle a (r + 1) b =
        { result := (fetchWithRetry oracle (a + 1) r (b * 2)).result
          waits := b :: (fetchWithRetry oracle (a + 1) r (b * 2)).waits
          attempts := 1 + (fetchWithRetry oracle (a + 1) r (b * 2)).attempts }) ∧
    fetchWithRetry (fun n => if n < 2 then .response 503 else .response 200) 0 3 1000 =
      { result := .ok 200, waits := [1000, 2000], attempts := 3 } ∧
    (fetchWithRetry (fun n => if n < 2 then .response 503 else .response 200) 0 3 1000).waitMs
      = 3000 ∧
    fetchWithRetry (fun _ => .response 503) 0 3 1000 =
      { result := .error "Server returned 503", waits := [1000, 2000, 4000], attempts := 4 } :=
  ⟨fetchWithRetry_retry_step, rfl, rfl, rfl⟩

/-- C4 witness: the retry step instantiated on an always-503 endpoint with
the default parameters. -/
theorem retry_backoff_schedule_witness :
    fetchWithRetry (fun _ => FetchOutcome.response 503) 0 3 1000 =
      { result := (fetchWithRetry (fun _ => FetchOutcome.response 503) 1 2 2000).result
        waits := 1000 :: (fetchWithRetry (fun _ => FetchOutcome.response 503) 1 2 2000).waits
        attempts := 1 + (fetchWithRetry (fun _ => FetchOutcome.response 503) 1 2 2000).attempts } :=
  retry_backoff_schedule.1 (fun _ => .response 503) 0 2 1000 (by decide)

/-- C5: Pull-Merge creates a local leaf for exactly the remote records whose
URL is absent from the local flattened URL set — titles falling back to the
URL when empty, per `createdLeaves` — never deletes or updates an existing
node (the old tree is preserved as a prefix), and is idempotent: a second
run against the unchanged remote collection leaves the store as it was. -/
theorem pull_merge_creates_absent_idempotent (settings : SyncSettings)
    (bms : List BookmarkRecord) (roots : List NativeNode) (nextId : Nat)
    (hUrl : settings.backendUrl ≠ "") :
    (syncToNative settings true (.success (some bms)) roots nextId).created =
      bms.filter (fun bm =>
        !((traverseList roots).map (fun n => n.url)).contains bm.url) ∧
    (syncToNative settings true (.success (some bms)) roots nextId).removedIds = [] ∧
    (syncToNative settings true (.success (some bms)) roots nextId).tree =
      roots ++ createdLeaves
        ((syncToNative settings true (.success (some bms)) roots nextId).created) nextId ∧
    (syncToNative settings true (.success (some bms))
        (syncToNative settings true (.success (some bms)) roots nextId).tree
        (syncToNative settings true (.success (some bms)) roots nextId).nextId).tree =
      (syncToNative settings true (.success (some bms)) roots nextId).tree := by
  have hg : ¬settings.backendUrl = "" := hUrl
  by_cases hlen : bms.length = 0
  · rw [List.length_eq_zero] at hlen
    subst hlen
    simp [syncToNative, hg, noChange, createdLeaves]
  · have run1 : syncToNative settings true (.success (some bms)) roots nextId =
        { tree := roots ++ createdLeaves (bms.filter (fun bm =>
            !((traverseList roots).map (fun n => n.url)).contains bm.url)) nextId
          nextId := nextId + (bms.filter (fun bm =>
            !((traverseList roots).map (fun n => n.url)).contains bm.url)).length
          created := bms.filter (fun bm =>
            !((traverseList roots).map (fun n => n.url)).contains bm.url)
          removedIds := []
          fetched := true
          message := some ("Synced " ++ toString (bms.filter (fun bm =>
            !((traverseList roots).map (fun n => n.url)).contains bm.url)).length
            ++ " new bookmarks to native.") } := by
      simp [syncToNative, hg, hlen, applyCreates_eq]
    refine ⟨by rw [run1], by rw [run1], by rw [run1], ?_⟩
    rw [run1]
    simp only [syncToNative, hg, if_false, Bool.not_true, Bool.false_eq_true, ite_false,
      ite_true, hlen, applyCreates_eq]
    have hfilter : bms.filter (fun bm =>
        !((traverseList (roots ++ createdLeaves (bms.filter (fun bm =>
          !((traverseList roots).map (fun n => n.url)).contains bm.url)) nextId)).map
            (fun n => n.url)).contains bm.url) = [] := by
      rw [List.filter_eq_nil_iff]
      intro bm hbm
      rw [traverseList_append, List.map_append, traverseList_createdLeaves]
      simp only [Bool.not_eq_true']
      rw [← Bool.not_eq_true, not_not, List.elem_iff, List.mem_append]
      by_cases hin : ((traverseList roots).map (fun n => n.url)).contains bm.url
      · left
        rw [← List.elem_iff]
        exact hin
      · right
        refine List.mem_map_of_mem _ (List.mem_filter.mpr ⟨hbm, ?_⟩)
        simp only [Bool.not_eq_true']
        exact Bool.not_eq_true _ ▸ (by simpa using hin)
    rw [hfilter]
    simp [createdLeaves]

/-- C5 witness: remote records `x` (empty title) and `y` against a local
tree already holding `y`: only `x` is created, nothing removed, and a second
run changes nothing. -/
theorem pull_merge_witness :
    (syncToNative ⟨"http://b", "", false, []⟩ true
        (.success (some [⟨"http://x", ""⟩, ⟨"http://y", "Y"⟩]))
        [.mk 1 "Y0" (some "http://y") []] 10).created =
      [⟨"http://x", ""⟩, ⟨"http://y", "Y"⟩].filter (fun bm =>
        !((traverseList [.mk 1 "Y0" (some "http://y") []]).map
          (fun n => n.url)).contains bm.url) ∧
    (syncToNative ⟨"http://b", "", false, []⟩ true
        (.success (some [⟨"http://x", ""⟩, ⟨"http://y", "Y"⟩]))
        [.mk 1 "Y0" (some "http://y") []] 10).removedIds = [] ∧
    (syncToNative ⟨"http://b", "", false, []⟩ true
        (.success (some [⟨"http://x", ""⟩, ⟨"http://y", "Y"⟩]))
        [.mk 1 "Y0" (some "http://y") []] 10).tree =
      [.mk 1 "Y0" (some "http://y") []] ++ createdLeaves
        ((syncToNative ⟨"http://b", "", false, []⟩ true
          (.success (some [⟨"http://x", ""⟩, ⟨"http://y", "Y"⟩]))
          [.mk 1 "Y0" (some "http://y") []] 10).created) 10 ∧
    (syncToNative ⟨"http://b", "", false, []⟩ true
        (.success (some [⟨"http://x", ""⟩, ⟨"http://y", "Y"⟩]))
        ((syncToNative ⟨"http://b", "", false, []⟩ true
          (.success (some [⟨"http://x", ""⟩, ⟨"http://y", "Y"⟩]))
          [.mk 1 "Y0" (some "http://y") []] 10).tree)
        ((syncToNative ⟨"http://b", "", false, []⟩ true
          (.success (some [⟨"http://x", ""⟩, ⟨"http://y", "Y"⟩]))
          [.mk 1 "Y0" (some "http://y") []] 10).nextId)).tree =
      (syncToNative ⟨"http://b", "", false, []⟩ true
        (.success (some [⟨"http://x", ""⟩, ⟨"http://y", "Y"⟩]))
        [.mk 1 "Y0" (some "http://y") []] 10).tree :=
  pull_merge_creates_absent_idempotent ⟨"http://b", "", false, []⟩
    [⟨"http://x", ""⟩, ⟨"http://y", "Y"⟩] [.mk 1 "Y0" (some "http://y") []] 10 (by decide)

/-- C6: Push issues one `POST /bookmarks` per flattened local leaf with the
fixed tag list `["imported"]`; each upsert is independent — a failure is
tallied without aborting the rest, so the success and failure counts always
sum to the number of leaves — and in the two-leaf scenario where one upsert
exhausts its retries against 500s and the other returns 201, the result
reports one success and one failure. -/
theorem push_upserts_and_partial_failure :
    (∀ (settings : SyncSettings) (roots : List NativeNode)
        (postResult : Nat → Except String Nat),
      settings.backendUrl ≠ "" → traverseList roots ≠ [] →
      (importBookmarks settings true roots postResult).requests =
        (traverseList roots).map
          (fun bm => { url := bm.url, title := bm.title, tags := ["imported"] : PostRequest }) ∧
      (importBookmarks settings true roots postResult).successCount
          + (importBookmarks settings true roots postResult).failCount
        = (traverseList roots).length) ∧
    importBookmarks ⟨"http://backend", "", false, []⟩ true
        [.mk 1 "A" (some "http://a") [], .mk 2 "B" (some "http://b") []]
        (fun i => if i = 0 then (fetchWithRetry (fun _ => .response 500) 0 3 1000).result
                  else .ok 201) =
      { requests := [⟨"http://a", "A", ["imported"]⟩, ⟨"http://b", "B", ["imported"]⟩]
        successCount := 1, failCount := 1, fetched := true
        message := some "Imported 1 bookmarks. 1 failed." } := by
  constructor
  · intro settings roots postResult hUrl hne
    have hg : ¬settings.backendUrl = "" := hUrl
    have hlen : ¬(traverseList roots).length = 0 := by
      simpa [List.length_eq_zero] using hne
    constructor
    · simp [importBookmarks, hg, hlen]
    · have h := countPost_fold_sum postResult (List.range (traverseList roots).length) 0 0
      simp only [List.length_range, Nat.zero_add] at h
      simpa [importBookmarks, hg, hlen] using h
  · rfl

/-- C6 witness: the independence part instantiated on a one-leaf tree whose
single upsert returns 201. -/
theorem push_upserts_witness :
    (importBookmarks ⟨"http://backend", "", false, []⟩ true
        [.mk 1 "A" (some "http://a") []] (fun _ => .ok 201)).requests =
      (traverseList [.mk 1 "A" (some "http://a") []]).map
        (fun bm => { url := bm.url, title := bm.title, tags := ["imported"] : PostRequest }) ∧
    (importBookmarks ⟨"http://backend", "", false, []⟩ true
          [.mk 1 "A" (some "http://a") []] (fun _ => .ok 201)).successCount
        + (importBookmarks ⟨"http://backend", "", false, []⟩ true
          [.mk 1 "A" (some "http://a") []] (fun _ => .ok 201)).failCount
      = (traverseList [.mk 1 "A" (some "http://a") []]).length :=
  push_upserts_and_partial_failure.1 ⟨"http://backend", "", false, []⟩
    [.mk 1 "A" (some "http://a") []] (fun _ => .ok 201) (by decide) (by decide)

/-- C7 (code bug): the interval registered by `startSync` invokes
`performAutoSync` with no in-flight check, so a tick firing while the
immediate pass begun by `startSync` is still running starts a second
concurrent Mirror pass (two active passes) instead of being dropped. -/
theorem tick_during_run_starts_second_pass :
    (schedStep ⟨"http://backend", "", true, []⟩ true 2
        (startSync 1 ⟨"http://backend", "", true, []⟩ true ⟨none, 0⟩) .tick).activeRuns
      = 2 := rfl

/-- C8 counterexample: with `backendUrl` unset, the background Mirror pass
issues no network call but also reports no user-visible message — the
claim's "reports a user-visible message" fails for the Mirror policy. -/
theorem mirror_unset_backend_no_message :
    (performAutoSync ⟨"", "key", true, []⟩ true (.success (some [⟨"http://x", "X"⟩])) [] 0).message
        = none ∧
    (performAutoSync ⟨"", "key", true, []⟩ true (.success (some [⟨"http://x", "X"⟩])) [] 0).fetched
        = false :=
  ⟨rfl, rfl⟩

/-- C8 (amended): with `backendUrl` unset, every policy aborts before
issuing any network call (hence performs no retries) and leaves the local
store unchanged; Push and Pull-Merge report the user-visible message
"Please set the backend URL first.", while the background Mirror pass
aborts silently with no user-visible message. -/
theorem unset_backend_aborts_before_network (settings : SyncSettings) (avail : Bool)
    (fetch : SyncFetch) (roots : List NativeNode) (nextId : Nat)
    (postResult : Nat → Except String Nat)
    (h : settings.backendUrl = "") :
    (performAutoSync settings avail fetch roots nextId).fetched = false ∧
    (performAutoSync settings avail fetch roots nextId).tree = roots ∧
    (performAutoSync settings avail fetch roots nextId).message = none ∧
    (syncToNative settings avail fetch roots nextId).fetched = false ∧
    (syncToNative settings avail fetch roots nextId).tree = roots ∧
    (syncToNative settings avail fetch roots nextId).message
      = some "Please set the backend URL first." ∧
    (importBookmarks settings avail roots postResult).fetched = false ∧
    (importBookmarks settings avail roots postResult).requests = [] ∧
    (importBookmarks settings avail roots postResult).message
      = some "Please set the backend URL first." := by
  simp [performAutoSync, syncToNative, importBookmarks, noChange, h]

/-- C8 witness: the amended abort behaviour at a concrete unset-URL
snapshot. -/
theorem unset_backend_aborts_witness :
    (performAutoSync ⟨"", "k", true, []⟩ true .failure [] 0).fetched = false ∧
    (performAutoSync ⟨"", "k", true, []⟩ true .failure [] 0).tree = [] ∧
    (performAutoSync ⟨"", "k", true, []⟩ true .failure [] 0).message = none ∧
    (syncToNative ⟨"", "k", true, []⟩ true .failure [] 0).fetched = false ∧
    (syncToNative ⟨"", "k", true, []⟩ true .failure [] 0).tree = [] ∧
    (syncToNative ⟨"", "k", true, []⟩ true .failure [] 0).message
      = some "Please set the backend URL first." ∧
    (importBookmarks ⟨"", "k", true, []⟩ true [] (fun _ => .ok 200)).fetched = false ∧
    (importBookmarks ⟨"", "k", true, []⟩ true [] (fun _ => .ok 200)).requests = [] ∧
    (importBookmarks ⟨"", "k", true, []⟩ true [] (fun _ => .ok 200)).message
      = some "Please set the backend URL first." :=
  unset_backend_aborts_before_network ⟨"", "k", true, []⟩ true .failure [] 0
    (fun _ => .ok 200) rfl

/-- C10: a successful Mirror fetch returning an empty collection does not
abort the pass: it proceeds to the apply step, issues a remove for every
flattened local leaf, and the resulting tree flattens to nothing — while a
`null` response body does short-circuit the run unchanged. -/
theorem mirror_empty_remote_deletes_all (settings : SyncSettings)
    (roots : List NativeNode) (nextId : Nat)
    (hAuto : settings.autoSync = true) (hUrl : settings.backendUrl ≠ "") :
    (performAutoSync settings true (.success (some [])) roots nextId).fetched = true ∧
    (performAutoSync settings true (.success (some [])) roots nextId).created = [] ∧
    (performAutoSync settings true (.success (some [])) roots nextId).removedIds
      = (traverseList roots).map (fun n => n.id) ∧
    traverseList (performAutoSync settings true (.success (some [])) roots nextId).tree = [] ∧
    (performAutoSync settings true (.success none) roots nextId).tree = roots := by
  have hg : ¬settings.backendUrl = "" := hUrl
  refine ⟨?_, ?_, ?_, ?_, ?_⟩ <;>
    simp [performAutoSync, mirrorPlan, noChange, hg, hAuto, applyCreates_eq,
      createdLeaves, traverse_removeAll_self]

/-- C10 witness: the empty-collection pass on a one-leaf tree. -/
theorem mirror_empty_remote_witness :
    (performAutoSync ⟨"http://b", "", true, []⟩ true (.success (some []))
        [.mk 1 "A" (some "http://a") []] 5).fetched = true ∧
    (performAutoSync ⟨"http://b", "", true, []⟩ true (.success (some []))
        [.mk 1 "A" (some "http://a") []] 5).created = [] ∧
    (performAutoSync ⟨"http://b", "", true, []⟩ true (.success (some []))
        [.mk 1 "A" (some "http://a") []] 5).removedIds
      = (traverseList [.mk 1 "A" (some "http://a") []]).map (fun n => n.id) ∧
    traverseList (performAutoSync ⟨"http://b", "", true, []⟩ true (.success (some []))
        [.mk 1 "A" (some "http://a") []] 5).tree = [] ∧
    (performAutoSync ⟨"http://b", "", true, []⟩ true (.success none)
        [.mk 1 "A" (some "http://a") []] 5).tree = [.mk 1 "A" (some "http://a") []] :=
  mirror_empty_remote_deletes_all ⟨"http://b", "", true, []⟩
    [.mk 1 "A" (some "http://a") []] 5 rfl (by decide)

/-! ## Header lemmas and C9 -/

/-- Reading back the key just assigned yields the assigned value. -/
theorem getHeader_setHeader_self (hs : List (String × String)) (k v : String) :
    getHeader (setHeader hs k v) k = some v := by
  induction hs with
  | nil => simp [setHeader, getHeader]
  | cons p rest ih =>
      obtain ⟨k1, v1⟩ := p
      by_cases hk : k1 = k
      · subst hk
        simp [setHeader, getHeader]
      · simp [setHeader, getHeader, hk, ih]

/-- Assigning one key leaves every other key's value unchanged. -/
theorem getHeader_setHeader_ne (hs : List (String × String)) (k v q : String)
    (hq : q ≠ k) :
    getHeader (setHeader hs k v) q = getHeader hs q := by
  have hkq : k ≠ q := Ne.symm hq
  induction hs with
  | nil => simp [setHeader, getHeader, hkq]
  | cons p rest ih =>
      obtain ⟨k1, v1⟩ := p
      by_cases hk : k1 = k
      · subst hk
        simp [setHeader, getHeader, hkq]
      · simp [setHeader, getHeader, hk, ih]

/-- The extra-header fold leaves any key it never assigns unchanged. -/
theorem getHeader_extraFold_not_mem (extras : List (String × String))
    (hs : List (String × String)) (q : String)
    (hq : ∀ p ∈ extras, p.1 ≠ "" → p.1 ≠ q) :
    getHeader (extras.foldl
      (fun a p => if p.1 ≠ "" then setHeader a p.1 p.2 else a) hs) q = getHeader hs q := by
  induction extras generalizing hs with
  | nil => rfl
  | cons p rest ih =>
      rw [List.foldl_cons]
      by_cases hp : p.1 = ""
      · rw [if_neg (by simpa using hp)]
        exact ih hs (fun x hx hne => hq x (List.mem_cons_of_mem _ hx) hne)
      · rw [if_pos (by simpa using hp)]
        rw [ih (setHeader hs p.1 p.2) (fun x hx hne => hq x (List.mem_cons_of_mem _ hx) hne)]
        exact getHeader_setHeader_ne hs p.1 p.2 q
          (Ne.symm (hq p (List.mem_cons_self _ _) hp))

/-- With pairwise-distinct non-empty keys, the extra-header fold makes each
configured entry readable at its key. -/
theorem getHeader_extraFold_mem (extras : List (String × String))
    (hs : List (String × String)) (k v : String) (hk : k ≠ "")
    (hmem : (k, v) ∈ extras)
    (hnodup : ((extras.filter (fun p => p.1 ≠ "")).map (fun p => p.1)).Nodup) :
    getHeader (extras.foldl
      (fun a p => if p.1 ≠ "" then setHeader a p.1 p.2 else a) hs) k = some v := by
  induction extras generalizing hs with
  | nil => cases hmem
  | cons p rest ih =>
      rw [List.foldl_cons]
      rcases List.mem_cons.mp hmem with heq | hrest
      · subst heq
        rw [if_pos (by simpa using hk)]
        have hkeys : ∀ x ∈ rest, x.1 ≠ "" → x.1 ≠ k := by
          intro x hx hne hxk
          rw [List.filter_cons_of_pos (by simpa using hk), List.map_cons,
            List.nodup_cons] at hnodup
          exact hnodup.1 (List.mem_map.mpr
            ⟨x, List.mem_filter.mpr ⟨hx, by simpa using hne⟩, hxk⟩)
        rw [getHeader_extraFold_not_mem rest (setHeader hs k v) k hkeys]
        exact getHeader_setHeader_self hs k v
      · have htail : ((rest.filter (fun p => p.1 ≠ "")).map (fun p => p.1)).Nodup := by
          by_cases hp : p.1 = ""
          · rwa [List.filter_cons_of_neg (by simpa using hp)] at hnodup
          · rw [List.filter_cons_of_pos (by simpa using hp), List.map_cons,
              List.nodup_cons] at hnodup
            exact hnodup.2
        by_cases hp : p.1 = ""
        · rw [if_neg (by simpa using hp)]
          exact ih hs hrest htail
        · rw [if_pos (by simpa using hp)]
          exact ih (setHeader hs p.1 p.2) hrest htail

/-- C9 counterexample: a configured extra header named `Authorization`
overrides the bearer token, so the resulting call does not carry
`Authorization: Bearer <apiKey>` as the claim requires of every snapshot. -/
theorem extra_header_overrides_authorization :
    getHeader (buildHeaders ⟨"http://b", "k", false, [("Authorization", "x")]⟩ false)
        "Authorization" = some "x" ∧
    ("x" : String) ≠ "Bearer " ++ "k" := by
  refine ⟨rfl, ?_⟩
  decide

/-- C9 (amended): for every settings snapshot whose extra headers have
pairwise-distinct non-empty keys, none named `Authorization`, `Accept` or
`Content-Type`, every call built by `buildHeaders` carries
`Authorization: Bearer <apiKey>` together with all those extra headers;
read/list calls (isJson = false) additionally carry
`Accept: application/json` and write calls (isJson = true) carry
`Content-Type: application/json`.  The headers built inline by the Mirror
pass coincide with the read/list headers.  (Extra headers are assigned
last, so a colliding or repeated key instead overrides: see the
counterexample.) -/
theorem headers_contract (settings : SyncSettings) (isJson : Bool)
    (hnodup : ((settings.extraHeaders.filter (fun p => p.1 ≠ "")).map
      (fun p => p.1)).Nodup)
    (hres : ∀ p ∈ settings.extraHeaders,
      p.1 ≠ "Authorization" ∧ p.1 ≠ "Accept" ∧ p.1 ≠ "Content-Type") :
    getHeader (buildHeaders settings isJson) "Authorization"
      = some ("Bearer " ++ settings.apiKey) ∧
    (isJson = true →
      getHeader (buildHeaders settings isJson) "Content-Type" = some "application/json") ∧
    (isJson = false →
      getHeader (buildHeaders settings isJson) "Accept" = some "application/json") ∧
    (∀ p ∈ settings.extraHeaders, p.1 ≠ "" →
      getHeader (buildHeaders settings isJson) p.1 = some p.2) ∧
    autoSyncHeaders settings = buildHeaders settings false := by
  refine ⟨?_, ?_, ?_, ?_, rfl⟩
  · simp only [buildHeaders]
    rw [getHeader_extraFold_not_mem _ _ _ (fun p hp _ => (hres p hp).1)]
    cases isJson
    · rw [if_neg (by simp)]
      rw [getHeader_setHeader_ne _ _ _ _ (by decide)]
      rfl
    · rw [if_pos rfl]
      rw [getHeader_setHeader_ne _ _ _ _ (by decide)]
      rfl
  · intro hj
    subst hj
    simp only [buildHeaders, eq_self_iff_true, if_true]
    rw [getHeader_extraFold_not_mem _ _ _ (fun p hp _ => (hres p hp).2.2)]
    exact getHeader_setHeader_self _ _ _
  · intro hj
    subst hj
    simp only [buildHeaders, Bool.false_eq_true, if_false]
    rw [getHeader_extraFold_not_mem _ _ _ (fun p hp _ => (hres p hp).2.1)]
    exact getHeader_setHeader_self _ _ _
  · intro p hp hne
    simp only [buildHeaders]
    exact getHeader_extraFold_mem _ _ _ _ hne (by simpa using hp) hnodup

/-- C9 witness: the amended contract at a concrete snapshot with one custom
extra header and one empty-keyed entry. -/
theorem headers_contract_witness :
    getHeader (buildHeaders ⟨"http://b", "k", false, [("X-Custom", "1"), ("", "z")]⟩ false)
        "Authorization" = some ("Bearer " ++ "k") ∧
    ((false : Bool) = true →
      getHeader (buildHeaders ⟨"http://b", "k", false, [("X-Custom", "1"), ("", "z")]⟩ false)
        "Content-Type" = some "application/json") ∧
    ((false : Bool) = false →
      getHeader (buildHeaders ⟨"http://b", "k", false, [("X-Custom", "1"), ("", "z")]⟩ false)
        "Accept" = some "application/json") ∧
    (∀ p ∈ ([("X-Custom", "1"), ("", "z")] : List (String × String)), p.1 ≠ "" →
      getHeader (buildHeaders ⟨"http://b", "k", false, [("X-Custom", "1"), ("", "z")]⟩ false)
        p.1 = some p.2) ∧
    autoSyncHeaders ⟨"http://b", "k", false, [("X-Custom", "1"), ("", "z")]⟩
      = buildHeaders ⟨"http://b", "k", false, [("X-Custom", "1"), ("", "z")]⟩ false :=
  headers_contract ⟨"http://b", "k", false, [("X-Custom", "1"), ("", "z")]⟩ false
    (by decide) (by decide)

end Linkman
